import Mathlib

/-!
# Verification of the plovasp VASP file readers (vaspio.py)

Shallow embedding of `triqs_dft_tools/converters/plovasp/vaspio.py`:
the LOCPROJ projector reader (`Plocar.locproj_parser`), the POSCAR
lattice reader (`Poscar.from_file`), the IBZKPT k-point reader
(`Kpoints.from_file`), the EIGENVAL band reader (`Eigenval.from_file`)
and the DOSCAR fallback logic in `VaspData.__init__`.

Text lines are modelled as lists of already-classified whitespace
tokens (a token is either a numeral, carried as the rational it
denotes, or a non-numeric word).  Python exceptions are modelled with
an explicit error type `PyErr`; fallible code returns `Except PyErr`.
-/

/-- Python exception kinds raised or caught by the code under study. -/
inductive PyErr where
  /-- `StopIteration`: a generator such as `read_lines` is exhausted. -/
  | stopIteration
  /-- `ValueError`: numeric conversion failure (`int(...)`, `float(...)`,
      unpacking of a too-short slice) or a failed `list.index` lookup. -/
  | valueError
  /-- `IndexError`: out-of-range subscript such as `sline[3]`. -/
  | indexError
  /-- `AttributeError`: access to an attribute that was never assigned. -/
  | attributeError
  /-- `NameError`: reference to an unbound name. -/
  | nameError
  /-- `IOError` from opening a missing file. -/
  | ioError
  /-- A failed `assert` statement with its message. -/
  | assertionError (msg : String)
  /-- A plain `raise Exception(msg)`. -/
  | exception (msg : String)
  deriving DecidableEq, Repr

/-- A whitespace-separated token of an input line: either a numeral
(its exact rational value) or a non-numeric word. -/
inductive Tok where
  | num (q : ℚ)
  | word (s : String)
  deriving DecidableEq, Repr

/-- A line of an input file, already split into whitespace tokens.
The empty list stands for a blank (whitespace-only) line. -/
abbrev Line := List Tok

/-- `next(f)` on the `read_lines` generator: yields the next line or
raises `StopIteration` when the file is exhausted. -/
def nextLine : List Line → Except PyErr (Line × List Line)
  | [] => .error .stopIteration
  | l :: ls => .ok (l, ls)

/-- Python `int(token)`: succeeds exactly on integer numerals
(`int("2.5")` and `int("abc")` both raise `ValueError`). -/
def intTok : Tok → Except PyErr ℤ
  | .num q => if q.den = 1 then .ok q.num else .error .valueError
  | .word _ => .error .valueError

/-- Python `float(token)`: succeeds on any numeral. -/
def floatTok : Tok → Except PyErr ℚ
  | .num q => .ok q
  | .word _ => .error .valueError

/-- `int(sline[i])`: subscript then integer conversion. -/
def intAt (l : Line) (i : ℕ) : Except PyErr ℤ :=
  match l.get? i with
  | none => .error .indexError
  | some t => intTok t

/-- `float(sline[i])`: subscript then float conversion. -/
def floatAt (l : Line) (i : ℕ) : Except PyErr ℚ :=
  match l.get? i with
  | none => .error .indexError
  | some t => floatTok t

/-- `list(map(float, sline))`: convert every token of a line. -/
def floatList : Line → Except PyErr (List ℚ)
  | [] => .ok []
  | t :: ts =>
      match floatTok t with
      | .error e => .error e
      | .ok q =>
          match floatList ts with
          | .ok qs => .ok (q :: qs)
          | .error e => .error e

/-! ## LOCPROJ: derived spin counts (`locproj_parser`, header line)

From the first line of LOCPROJ the parser reads `ncdij` and derives
  `self.nspin      = self.ncdij if self.ncdij < 4 else 1`
  `self.nspin_band = 2 if self.ncdij == 2 else 1`
  `self.nc_flag    = 1 if self.ncdij == 4 else 0`. -/

/-- `self.nspin = self.ncdij if self.ncdij < 4 else 1` (vaspio.py:170). -/
def nspinOf (ncdij : ℕ) : ℕ := if ncdij < 4 then ncdij else 1

/-- `self.nspin_band = 2 if self.ncdij == 2 else 1` (vaspio.py:173). -/
def nspinBandOf (ncdij : ℕ) : ℕ := if ncdij = 2 then 2 else 1

/-- `self.nc_flag = 1 if self.ncdij == 4 else 0` (vaspio.py:187-191). -/
def ncFlagOf (ncdij : ℕ) : Bool := ncdij == 4

/-- `try: self.efermi = float(sline[4]) except: warn` (vaspio.py:175-178):
the Fermi attribute is set only when the fifth header token parses. -/
def locprojEfermi (headerLine : Line) : Option ℚ :=
  match floatAt headerLine 4 with
  | .ok q => some q
  | .error _ => none

/-! ## LOCPROJ: header metadata block (vaspio.py:194-220)

After `search_for(f, "^ *ISITE")` positions the stream on the first
metadata line, the loop splits each line on `:`, parses the site index
from the first field and looks the trailing orbital label up in
`orb_labels`.  The loop ends at the first empty (or missing) line and
then `assert ip == nproj`.  A header line is modelled already split:
`hItem isite label` for a well-formed `ISITE : n ... : label` line,
`hEmpty` for a blank line, `hBad` for a line whose split or integer
conversion fails. -/

/-- The fixed 16-entry orbital label table `orb_labels` (vaspio.py:154). -/
def orbLabels : List String :=
  ["s", "py", "pz", "px", "dxy", "dyz", "dz2", "dxz", "dx2-y2",
   "fy(3x2-y2)", "fxyz", "fyz2", "fz3", "fxz2", "fz(x2-y2)", "fx(x2-3y2)"]

/-- A line of the LOCPROJ metadata block, already split on `:`. -/
inductive HLine where
  | hEmpty
  | hItem (isite : ℤ) (label : String)
  | hBad
  deriving DecidableEq, Repr

/-- One parsed per-projector metadata record (`proj_params[ip]`). -/
structure ProjParam where
  label : String
  isite : ℤ
  l : ℕ
  m : ℕ
  deriving DecidableEq, Repr

/-- Largest `j ≤ k` with `j * j ≤ n` (0 if none): structural-recursion
helper for the integer square root, so that concrete instances reduce
inside the kernel. -/
def isqrtIter (n : ℕ) : ℕ → ℕ
  | 0 => 0
  | k + 1 => if (k + 1) * (k + 1) ≤ n then k + 1 else isqrtIter n k

/-- Integer square root (`int(np.sqrt(lm))` — exact for the small
table indices involved); proved equal to `Nat.sqrt` below. -/
def isqrtFn (n : ℕ) : ℕ := isqrtIter n n

/-- `lm_to_l_m` (vaspio.py:157-160): `l = int(sqrt(lm))`, `m = lm - l*l`. -/
def lmToLM (lm : ℕ) : ℕ × ℕ := (isqrtFn lm, lm - isqrtFn lm * isqrtFn lm)

/-- The header `while line:` loop (vaspio.py:197-218).  Processes
metadata lines until a blank line or end of input, counting records in
`ip`; each label is looked up in `orbLabels` (a miss is Python
`list.index` raising `ValueError`) and, in the non-collinear case, the
magnetic quantum number is re-encoded as `2m` / `2m+1` by record
parity. -/
def headerLoop (ncFlag : Bool) : List HLine → ℕ → Except PyErr (List ProjParam × ℕ)
  | [], ip => .ok ([], ip)
  | .hEmpty :: _, ip => .ok ([], ip)
  | .hBad :: _, _ => .error .valueError
  | .hItem isite label :: rest, ip =>
      match orbLabels.indexOf? label with
      | none => .error .valueError
      | some lm =>
          let l := (lmToLM lm).1
          let m := (lmToLM lm).2
          let mEnc := if ncFlag then (if ip % 2 = 0 then 2 * m else 2 * m + 1) else m
          match headerLoop ncFlag rest (ip + 1) with
          | .ok (ps, ipF) => .ok (⟨label, isite, l, mEnc⟩ :: ps, ipF)
          | .error e => .error e

/-- The full metadata phase: run `headerLoop` from `ip = 0`, then
`assert ip == nproj` (vaspio.py:220). -/
def locprojHeaderBlock (ncdij nproj : ℕ) (lines : List HLine) :
    Except PyErr (List ProjParam) :=
  match headerLoop (ncFlagOf ncdij) lines 0 with
  | .error e => .error e
  | .ok (ps, ip) =>
      if ip = nproj then .ok ps
      else .error (.assertionError "Number of projectors in the header is wrong in LOCPROJ")

/-- Build a metadata line from a (site, label) pair. -/
def mkHItem (t : ℤ × String) : HLine := HLine.hItem t.1 t.2

/-- A metadata block terminator as the code sees it: either end of
input (`readline` returns an empty string) or a blank line. -/
def termOk : List HLine → Prop
  | [] => True
  | .hEmpty :: _ => True
  | _ => False

/-- The raw (pre-re-encoding) magnetic quantum number determined by an
orbital label through the table lookup and `lm_to_l_m`. -/
def mRaw (label : String) : ℕ := (lmToLM ((orbLabels.indexOf? label).getD 0)).2

/-- Reference computation of the metadata records produced for a run of
well-formed lines with recognised labels, starting at counter `ip`. -/
def headerParams (ncFlag : Bool) (ip : ℕ) : List (ℤ × String) → List ProjParam
  | [] => []
  | (isite, label) :: rest =>
      let lm := (orbLabels.indexOf? label).getD 0
      let m := (lmToLM lm).2
      let mEnc := if ncFlag then (if ip % 2 = 0 then 2 * m else 2 * m + 1) else m
      ⟨label, isite, (lmToLM lm).1, mEnc⟩ :: headerParams ncFlag (ip + 1) rest

/-- The expected encoded magnetic quantum number at record counter `k`
for a given orbital label: the `2m` / `2m+1` parity rule when the
non-collinear flag is set, the raw `m` otherwise. -/
def mEncSpec (flag : Bool) (k : ℕ) (label : String) : ℕ :=
  if flag then (if k % 2 = 0 then 2 * mRaw label else 2 * mRaw label + 1) else mRaw label

/-! ## LOCPROJ: data block (vaspio.py:222-242)

Triple loop over `ispin in range(self.nspin)`, `ik in range(nk)`,
`ib in range(self.nband)`.  For each position: skip blank lines, parse
the embedded 1-based `(spin, k, band)` indices from tokens 1..3 of the
record line, `assert` they equal the loop counters plus one, parse
eigenvalue and occupation from tokens 4 and 5, then read exactly
`nproj` coefficient lines taking tokens 1 and 2 as the real and
imaginary parts. -/

/-- `f.readline()`: returns the next line, or an empty line at end of
input (Python `readline` never raises). -/
def readlineF : List Line → Line × List Line
  | [] => ([], [])
  | l :: ls => (l, ls)

/-- `while not line: line = f.readline().strip()` (vaspio.py:230-232).
At end of input the source would spin forever on empty strings; the
exhausted stream is modelled as the end-of-input error. -/
def skipBlank : List Line → Except PyErr (Line × List Line)
  | [] => .error .stopIteration
  | [] :: rest => skipBlank rest
  | l :: rest => .ok (l, rest)

/-- Output of one `(spin, k, band)` record: eigenvalue, Fermi weight
and the `nproj` complex coefficients (as real/imaginary pairs). -/
structure DataOut where
  eig : ℚ
  ferw : ℚ
  coeffs : List (ℚ × ℚ)
  deriving DecidableEq, Repr

/-- The inner `for ip in range(nproj)` loop (vaspio.py:238-242):
`nproj` plain `readline` calls, taking tokens 1 and 2 as floats. -/
def readCoeffs : ℕ → List Line → Except PyErr (List (ℚ × ℚ) × List Line)
  | 0, ls => .ok ([], ls)
  | n + 1, ls =>
      let (l, rest) := readlineF ls
      match floatAt l 1, floatAt l 2 with
      | .ok re, .ok im =>
          match readCoeffs n rest with
          | .ok (cs, rest2) => .ok ((re, im) :: cs, rest2)
          | .error e => .error e
      | .error e, _ => .error e
      | _, .error e => .error e

/-- One `(spin, k, band)` record (vaspio.py:230-242): skip blanks,
parse tokens 1..3 as the embedded 1-based indices, check them against
the 0-based loop counters plus one (`assert ... , "Inconsistency in
reading LOCPROJ"`), parse eigenvalue and occupation, then the
coefficient lines.  (For a record line with fewer than four tokens the
source raises on unpacking; the model raises on the subscript.) -/
def readDataRecord (nproj : ℕ) (pos : ℕ × ℕ × ℕ) (ls : List Line) :
    Except PyErr (DataOut × List Line) :=
  match skipBlank ls with
  | .error e => .error e
  | .ok (l, rest) =>
      match intAt l 1, intAt l 2, intAt l 3 with
      | .ok isp, .ok ik, .ok ib =>
          if isp = (pos.1 : ℤ) + 1 ∧ ik = (pos.2.1 : ℤ) + 1 ∧ ib = (pos.2.2 : ℤ) + 1 then
            match floatAt l 4, floatAt l 5 with
            | .ok eig, .ok ferw =>
                match readCoeffs nproj rest with
                | .ok (cs, rest2) => .ok (⟨eig, ferw, cs⟩, rest2)
                | .error e => .error e
            | .error e, _ => .error e
            | _, .error e => .error e
          else .error (.assertionError "Inconsistency in reading LOCPROJ")
      | .error e, _, _ => .error e
      | _, .error e, _ => .error e
      | _, _, .error e => .error e

/-- The loop positions of the phase-3 triple loop, in iteration order:
`(ispin, ik, ib)` for `ispin < nspin`, `ik < nk`, `ib < nband`. -/
def tripleList (nspin nk nb : ℕ) : List (ℕ × ℕ × ℕ) :=
  (List.range nspin).flatMap fun s =>
    (List.range nk).flatMap fun k =>
      (List.range nb).map fun bb => (s, k, bb)

/-- Phase-3 loop body: one record per loop position. -/
def readDataLoop (nproj : ℕ) : List (ℕ × ℕ × ℕ) → List Line →
    Except PyErr (List DataOut × List Line)
  | [], ls => .ok ([], ls)
  | e :: es, ls =>
      match readDataRecord nproj e ls with
      | .error er => .error er
      | .ok (r, ls1) =>
          match readDataLoop nproj es ls1 with
          | .ok (rs, ls2) => .ok (r :: rs, ls2)
          | .error er => .error er

/-- The whole phase-3 data block of `locproj_parser`: triple loop over
spin (`self.nspin`), k-point and band. -/
def locprojDataBlock (ncdij nk nband nproj : ℕ) (ls : List Line) :
    Except PyErr (List DataOut) :=
  match readDataLoop nproj (tripleList (nspinOf ncdij) nk nband) ls with
  | .ok (rs, _) => .ok rs
  | .error e => .error e

/-- The slot of `self.eigs` / `self.ferw` written at loop position
`(ispin, ik, ib)`: the arrays are indexed `[ik, ib, ispin]`. -/
def eigsWriteSlots (nspin nk nb : ℕ) : List (ℕ × ℕ × ℕ) :=
  (tripleList nspin nk nb).map fun t => (t.2.1, t.2.2, t.1)

/-- Content of one record block of a LOCPROJ data section: the indices
embedded in the record line (1-based in a valid file), the eigenvalue
and occupation tokens, and the coefficient pairs. -/
structure BlockSpec where
  tI : ℕ × ℕ × ℕ
  eig : ℚ
  ferw : ℚ
  coeffs : List (ℚ × ℚ)
  deriving DecidableEq, Repr

/-- The record line of a block: `orbital ch isp ik ib eig occ`. -/
def recordLineOf (b : BlockSpec) : Line :=
  [Tok.word "orbital", Tok.num (b.tI.1 : ℚ), Tok.num (b.tI.2.1 : ℚ),
   Tok.num (b.tI.2.2 : ℚ), Tok.num b.eig, Tok.num b.ferw]

/-- A coefficient line: a leading counter token then the real and
imaginary parts. -/
def coeffLineOf (c : ℚ × ℚ) : Line := [Tok.word "ch", Tok.num c.1, Tok.num c.2]

/-- The lines of one record block. -/
def mkBlock (b : BlockSpec) : List Line := recordLineOf b :: b.coeffs.map coeffLineOf

/-- The lines of a whole data section. -/
def mkBlocks (bs : List BlockSpec) : List Line := bs.flatMap mkBlock

/-- The 1-based index triple a valid file must embed at 0-based loop
position `e`. -/
def shiftTriple (e : ℕ × ℕ × ℕ) : ℕ × ℕ × ℕ := (e.1 + 1, e.2.1 + 1, e.2.2 + 1)

/-- Number of occurrences of an array slot in a list of write slots. -/
def countSlot (l : List (ℕ × ℕ × ℕ)) (x : ℕ × ℕ × ℕ) : ℕ :=
  (l.filter fun y => y = x).length

instance instDecEqExcept {ε α : Type} [DecidableEq ε] [DecidableEq α] :
    DecidableEq (Except ε α)
  | .ok a, .ok b =>
      if h : a = b then .isTrue (by rw [h]) else .isFalse (fun hc => h (Except.ok.inj hc))
  | .error e, .error f =>
      if h : e = f then .isTrue (by rw [h]) else .isFalse (fun hc => h (Except.error.inj hc))
  | .ok _, .error _ => .isFalse (fun hc => Except.noConfusion hc)
  | .error _, .ok _ => .isFalse (fun hc => Except.noConfusion hc)

/-! ## IBZKPT: Kpoints.from_file (vaspio.py:408-469)

Skip a comment line; read the k-point count from token 0 of the next
line; skip another comment line; read `nktot` lines of 3 fractional
coordinates and a weight; divide every weight by `nktot`.  Then try to
read the optional tetrahedron section (a comment line, a count/volume
line, `ntet` five-integer lines); `except StopIteration` sets the
tetrahedron count to 0.  (The clause is written
`except StopIteration as ValueError`, which merely binds the caught
`StopIteration` to the name `ValueError`: an actual `ValueError`
propagates.) -/

/-- Result of `Kpoints.from_file`.  `volt` is `none` when the
tetrahedron section was absent (the attribute is never assigned). -/
structure KpointsRes where
  nktot : ℤ
  kpts : List (ℚ × ℚ × ℚ)
  kwghts : List ℚ
  ntet : ℤ
  volt : Option ℚ
  itet : List (List ℤ)
  deriving DecidableEq, Repr

/-- The `for ik in range(self.nktot)` loop (vaspio.py:441-445): three
float coordinates from tokens 0..2, then the weight from token 3.  (On
a line with fewer than three tokens the source fails the numpy row
assignment; the model fails on the subscript.) -/
def readKptLines : ℕ → List Line → Except PyErr (List ((ℚ × ℚ × ℚ) × ℚ) × List Line)
  | 0, ls => .ok ([], ls)
  | n + 1, ls =>
      match nextLine ls with
      | .error e => .error e
      | .ok (l, ls1) =>
          match floatAt l 0, floatAt l 1, floatAt l 2 with
          | .ok x, .ok y, .ok z =>
              match floatAt l 3 with
              | .ok w =>
                  match readKptLines n ls1 with
                  | .ok (ps, ls2) => .ok (((x, y, z), w) :: ps, ls2)
                  | .error e => .error e
              | .error e => .error e
          | .error e, _, _ => .error e
          | _, .error e, _ => .error e
          | _, _, .error e => .error e

/-- `list(map(int, line.split()[:5]))` for one tetrahedron line. -/
def int5 (l : Line) : Except PyErr (List ℤ) :=
  match intAt l 0, intAt l 1, intAt l 2, intAt l 3, intAt l 4 with
  | .ok a, .ok b, .ok c, .ok d, .ok e => .ok [a, b, c, d, e]
  | .error e, _, _, _, _ => .error e
  | _, .error e, _, _, _ => .error e
  | _, _, .error e, _, _ => .error e
  | _, _, _, .error e, _ => .error e
  | _, _, _, _, .error e => .error e

/-- The `for it in range(self.ntet)` loop (vaspio.py:464-466). -/
def readTetLines : ℕ → List Line → Except PyErr (List (List ℤ) × List Line)
  | 0, ls => .ok ([], ls)
  | n + 1, ls =>
      match nextLine ls with
      | .error e => .error e
      | .ok (l, ls1) =>
          match int5 l with
          | .ok r =>
              match readTetLines n ls1 with
              | .ok (rs, ls2) => .ok (r :: rs, ls2)
              | .error e => .error e
          | .error e => .error e

/-- The body of the `try:` block (vaspio.py:451-466): skip the
"Tetrahedra" comment line, read the count and volume, then the
tetrahedron lines. -/
def tetSection (ls : List Line) :
    Except PyErr ((ℤ × ℚ × List (List ℤ)) × List Line) :=
  match nextLine ls with
  | .error e => .error e
  | .ok (_, ls1) =>
      match nextLine ls1 with
      | .error e => .error e
      | .ok (l2, ls2) =>
          match intAt l2 0 with
          | .error e => .error e
          | .ok ntet =>
              match floatAt l2 1 with
              | .error e => .error e
              | .ok volt =>
                  match readTetLines ntet.toNat ls2 with
                  | .ok (itet, ls3) => .ok ((ntet, volt, itet), ls3)
                  | .error e => .error e

/-- `Kpoints.from_file` over a token-line stream. -/
def kpointsFromFile (lines : List Line) : Except PyErr KpointsRes :=
  match nextLine lines with
  | .error e => .error e
  | .ok (_, ls1) =>
      match nextLine ls1 with
      | .error e => .error e
      | .ok (l2, ls2) =>
          match intAt l2 0 with
          | .error e => .error e
          | .ok nk =>
              match nextLine ls2 with
              | .error e => .error e
              | .ok (_, ls3) =>
                  match readKptLines nk.toNat ls3 with
                  | .error e => .error e
                  | .ok (kdata, ls4) =>
                      let kpts := kdata.map Prod.fst
                      let kwghts := (kdata.map Prod.snd).map fun w => w / (nk : ℚ)
                      match tetSection ls4 with
                      | .error .stopIteration => .ok ⟨nk, kpts, kwghts, 0, none, []⟩
                      | .error e => .error e
                      | .ok ((ntet, volt, itet), _) =>
                          .ok ⟨nk, kpts, kwghts, ntet, some volt, itet⟩

/-- One k-point line: three coordinates and a weight. -/
def mkKptLine (p : (ℚ × ℚ × ℚ) × ℚ) : Line :=
  [Tok.num p.1.1, Tok.num p.1.2.1, Tok.num p.1.2.2, Tok.num p.2]

/-- An IBZKPT file: comment line, count line, comment line, the
k-point lines, then whatever follows (the optional tetrahedron
section). -/
def mkKpointsFile (c1 c3 : Line) (nk : ℕ) (kdata : List ((ℚ × ℚ × ℚ) × ℚ))
    (rest : List Line) : List Line :=
  c1 :: [Tok.num (nk : ℚ)] :: c3 :: (kdata.map mkKptLine ++ rest)

/-! ## EIGENVAL: Eigenval.from_file (vaspio.py:495-548)

Preamble: line 1 gives `nq` (token 0) and `ispin` (token 3), lines 2-5
are skipped, line 6 gives `nelect`, `nktot`, `nband`.  Then for every
k-point: a separator line, a k-point/weight line, and `nband` band
lines, each of which must split into exactly `2 * ispin + 1` floats. -/

/-- One band line (vaspio.py:544-548): every token converted with
`float`, then `assert len(tmp) == 2 * self.ispin + 1`; eigenvalues are
`tmp[1 : ispin + 1]`, occupations `tmp[ispin + 1 :]`. -/
def eigBandLine (ispin : ℕ) (l : Line) : Except PyErr (List ℚ × List ℚ) :=
  match floatList l with
  | .error e => .error e
  | .ok tmp =>
      if tmp.length = 2 * ispin + 1 then
        .ok ((tmp.drop 1).take ispin, tmp.drop (ispin + 1))
      else
        .error (.assertionError
          "EIGENVAL file is incorrect (probably from old versions of VASP)")

/-- The `for ib in range(self.nband)` loop (vaspio.py:543). -/
def eigReadBands (ispin : ℕ) : ℕ → List Line →
    Except PyErr (List (List ℚ × List ℚ) × List Line)
  | 0, ls => .ok ([], ls)
  | n + 1, ls =>
      match nextLine ls with
      | .error e => .error e
      | .ok (l, ls1) =>
          match eigBandLine ispin l with
          | .error e => .error e
          | .ok r =>
              match eigReadBands ispin n ls1 with
              | .ok (rs, ls2) => .ok (r :: rs, ls2)
              | .error e => .error e

/-- The `for ik in range(self.nktot)` loop (vaspio.py:536-548): skip
a separator line, read the k-point/weight line (all floats; the first
three are the coordinates, token 3 the weight), then the band lines. -/
def eigReadK (ispin nband : ℕ) : ℕ → List Line →
    Except PyErr (List (((ℚ × ℚ × ℚ) × ℚ) × List (List ℚ × List ℚ)) × List Line)
  | 0, ls => .ok ([], ls)
  | n + 1, ls =>
      match nextLine ls with
      | .error e => .error e
      | .ok (_, ls1) =>
          match nextLine ls1 with
          | .error e => .error e
          | .ok (kl, ls2) =>
              match floatList kl with
              | .error e => .error e
              | .ok tmp =>
                  match tmp with
                  | x :: y :: z :: w :: _ =>
                      match eigReadBands ispin nband ls2 with
                      | .error e => .error e
                      | .ok (bands, ls3) =>
                          match eigReadK ispin nband n ls3 with
                          | .ok (rs, ls4) => .ok ((((x, y, z), w), bands) :: rs, ls4)
                          | .error e => .error e
                  | _ =>
                      if tmp.length < 3 then .error .valueError else .error .indexError

/-- Result of `Eigenval.from_file`: preamble integers and the per-k
data. -/
structure EigRes where
  nq : ℤ
  ispin : ℤ
  nelect : ℤ
  nktot : ℤ
  nband : ℤ
  perK : List (((ℚ × ℚ × ℚ) × ℚ) × List (List ℚ × List ℚ))
  deriving DecidableEq, Repr

/-- `Eigenval.from_file` over a token-line stream. -/
def eigenvalFromFile (lines : List Line) : Except PyErr EigRes :=
  match nextLine lines with
  | .error e => .error e
  | .ok (l1, s1) =>
      match intAt l1 0, intAt l1 3 with
      | .ok nq, .ok ispin =>
          match s1 with
          | _ :: _ :: _ :: _ :: s5 =>
              match nextLine s5 with
              | .error e => .error e
              | .ok (l6, s6) =>
                  match intAt l6 0, intAt l6 1, intAt l6 2 with
                  | .ok nelect, .ok nktot, .ok nband =>
                      match eigReadK ispin.toNat nband.toNat nktot.toNat s6 with
                      | .error e => .error e
                      | .ok (perK, _) => .ok ⟨nq, ispin, nelect, nktot, nband, perK⟩
                  | .error e, _, _ => .error e
                  | _, .error e, _ => .error e
                  | _, _, .error e => .error e
          | _ => .error .stopIteration
      | .error e, _ => .error e
      | _, .error e => .error e

/-! ## DOSCAR and the Fermi-level fallback (vaspio.py:87-100, 566-586) -/

/-- `Doscar.from_file`: skip five lines, then token 3 of the sixth
line is the Fermi energy. -/
def doscarFromFile (lines : List Line) : Except PyErr ℚ :=
  match lines with
  | _ :: _ :: _ :: _ :: _ :: l6 :: _ => floatAt l6 3
  | _ => .error .stopIteration

/-- The DOSCAR branch of `VaspData.__init__` (vaspio.py:87-100),
parameterized by the outcome of the DOSCAR read, the optionally-set
`plocar.efermi` attribute, `plocar.nspin`, and the `efermi_required`
flag; returns the final `(doscar.efermi, doscar.ncdij)` pair.
`except (IOError, StopIteration)` catches only those two kinds.  In
the required-Fermi branch the source evaluates `self.plocar.efermi`
inside `try ... except NameError`: when the attribute was never set
this raises `AttributeError`, which the `except NameError` clause does
not match, so it propagates uncaught and the
`raise Exception("Efermi cannot be read from DOSCAR or LOCPROJ")`
handler body is unreachable. -/
def doscarFallback (doscarRes : Except PyErr ℚ) (plocarEfermi : Option ℚ)
    (plocarNspin : ℕ) (efermiRequired : Bool) : Except PyErr (Option ℚ × Option ℕ) :=
  match doscarRes with
  | .ok e => .ok (some e, none)
  | .error err =>
      if err = .ioError ∨ err = .stopIteration then
        if efermiRequired then
          match (match plocarEfermi with
                 | some ef => (.ok ef : Except PyErr ℚ)
                 | none => .error .attributeError) with
          | .ok ef => .ok (some ef, none)
          | .error .nameError =>
              .error (.exception "Efermi cannot be read from DOSCAR or LOCPROJ")
          | .error e2 => .error e2
        else .ok (none, some plocarNspin)
      else .error err

/-! ## POSCAR: Poscar.from_file (vaspio.py:287-343) -/

/-- A whitespace token of a POSCAR species/counts line: its raw text
together with its value as Python `int(...)` sees it (`none` when
`int` raises `ValueError`). -/
structure PosTok where
  str : String
  asInt : Option ℤ
  deriving DecidableEq, Repr

/-- `list(map(int, sline.split()))`: all-or-nothing integer parse. -/
def tryIntList (l : List PosTok) : Option (List ℤ) := l.mapM PosTok.asInt

/-- The ambiguous-line resolution (vaspio.py:329-338): try the line as
ion counts, labelling the species `El0`, `El1`, ...; on `ValueError`
reinterpret the line as element names and parse the next line as the
ion counts. -/
def poscarSpecies (line1 line2 : List PosTok) :
    Except PyErr (List String × List ℤ) :=
  match tryIntList line1 with
  | some ns => .ok ((List.range ns.length).map (fun i => "El" ++ toString i), ns)
  | none =>
      match tryIntList line2 with
      | some ns => .ok (line1.map PosTok.str, ns)
      | none => .error .valueError

/-- `self.nq = sum(self.nions)` (vaspio.py:343). -/
def poscarNq (ns : List ℤ) : ℤ := ns.sum

/-- Scale resolution (vaspio.py:311-325): the three raw lattice
vectors are read unscaled first; a negative scale factor is a target
cell volume and the effective scale is `(|scale| / det)^(1/3)`. -/
noncomputable def poscarEffScale (ascale : ℝ) (aBrav : Matrix (Fin 3) (Fin 3) ℝ) : ℝ :=
  if ascale < 0 then ((-ascale) / aBrav.det) ^ ((1 : ℝ) / 3) else ascale

/-- `self.a_brav *= ascale` (vaspio.py:325), with the resolved scale. -/
noncomputable def poscarScaledLattice (ascale : ℝ)
    (aBrav : Matrix (Fin 3) (Fin 3) ℝ) : Matrix (Fin 3) (Fin 3) ℝ :=
  poscarEffScale ascale aBrav • aBrav

theorem isqrtIter_eq (n : ℕ) :
    ∀ k, Nat.sqrt n ≤ k → isqrtIter n k = Nat.sqrt n := by
  intro k
  induction k with
  | zero => intro h; simpa [isqrtIter] using (Nat.le_antisymm h (Nat.zero_le _)).symm
  | succ j ih =>
      intro h
      by_cases hle : (j + 1) * (j + 1) ≤ n
      · have h1 : j + 1 ≤ Nat.sqrt n := Nat.le_sqrt.mpr hle
        simp [isqrtIter, hle, Nat.le_antisymm h h1]
      · have h2 : Nat.sqrt n ≤ j := by
          by_contra hc
          exact hle (Nat.le_sqrt.mp (by omega))
        simp [isqrtIter, hle, ih h2]

/-- The executable integer square root agrees with `Nat.sqrt`. -/
theorem isqrtFn_eq_sqrt (n : ℕ) : isqrtFn n = Nat.sqrt n :=
  isqrtIter_eq n n (Nat.sqrt_le_self n)

theorem headerParams_length (ncFlag : Bool) (ts : List (ℤ × String)) :
    ∀ ip, (headerParams ncFlag ip ts).length = ts.length := by
  induction ts with
  | nil => intro ip; rfl
  | cons t rest ih =>
      intro ip
      obtain ⟨isite, label⟩ := t
      simp [headerParams, ih]

/-- On a run of recognised metadata lines followed by a valid
terminator, `headerLoop` succeeds and returns exactly the reference
records, advancing the counter by the number of lines. -/
theorem headerLoop_run (ncFlag : Bool) (ts : List (ℤ × String)) :
    ∀ (rest : List HLine) (ip : ℕ),
      (∀ t ∈ ts, (orbLabels.indexOf? t.2).isSome) → termOk rest →
      headerLoop ncFlag (ts.map mkHItem ++ rest) ip =
        .ok (headerParams ncFlag ip ts, ip + ts.length) := by
  induction ts with
  | nil =>
      intro rest ip _ hterm
      match rest with
      | [] => rfl
      | .hEmpty :: _ => rfl
      | .hItem _ _ :: _ => exact absurd hterm (by simp [termOk])
      | .hBad :: _ => exact absurd hterm (by simp [termOk])
  | cons t rest0 ih =>
      intro rest ip hgood hterm
      obtain ⟨isite, label⟩ := t
      have hl : (orbLabels.indexOf? label).isSome := hgood (isite, label) (List.mem_cons_self _ _)
      obtain ⟨lm, hlm⟩ := Option.isSome_iff_exists.mp hl
      have hrec := ih rest (ip + 1) (fun u hu => hgood u (List.mem_cons_of_mem _ hu)) hterm
      have harith : ip + 1 + rest0.length = ip + (rest0.length + 1) := by omega
      simp only [List.map_cons, List.cons_append, mkHItem, headerLoop, hlm, List.append_eq]
      rw [hrec]
      simp [headerParams, hlm, harith]

/-- If an unrecognised label occurs after a run of recognised lines,
`headerLoop` fails with `ValueError` (Python `list.index`). -/
theorem headerLoop_badLabel (ncFlag : Bool) (ts : List (ℤ × String)) :
    ∀ (isite : ℤ) (bad : String) (rest : List HLine) (ip : ℕ),
      (∀ t ∈ ts, (orbLabels.indexOf? t.2).isSome) →
      orbLabels.indexOf? bad = none →
      headerLoop ncFlag (ts.map mkHItem ++ (HLine.hItem isite bad :: rest)) ip =
        .error .valueError := by
  induction ts with
  | nil =>
      intro isite bad rest ip _ hbad
      simp [headerLoop, hbad]
  | cons t rest0 ih =>
      intro isite bad rest ip hgood hbad
      obtain ⟨is0, lab0⟩ := t
      have hl : (orbLabels.indexOf? lab0).isSome := hgood (is0, lab0) (List.mem_cons_self _ _)
      obtain ⟨lm, hlm⟩ := Option.isSome_iff_exists.mp hl
      have hrec := ih isite bad rest (ip + 1) (fun u hu => hgood u (List.mem_cons_of_mem _ hu)) hbad
      simp only [List.map_cons, List.cons_append, mkHItem, headerLoop, hlm, List.append_eq]
      rw [hrec]

/-- Any successful `headerLoop` run advances the counter by exactly the
number of records returned. -/
theorem headerLoop_count (ncFlag : Bool) :
    ∀ (lines : List HLine) (ip : ℕ) (ps : List ProjParam) (ipF : ℕ),
      headerLoop ncFlag lines ip = .ok (ps, ipF) → ipF = ip + ps.length := by
  intro lines
  induction lines with
  | nil =>
      intro ip ps ipF h
      simp only [headerLoop, Except.ok.injEq, Prod.mk.injEq] at h
      obtain ⟨h1, h2⟩ := h
      subst h1
      subst h2
      simp
  | cons l rest ih =>
      intro ip ps ipF h
      match l with
      | .hEmpty =>
          simp only [headerLoop, Except.ok.injEq, Prod.mk.injEq] at h
          obtain ⟨h1, h2⟩ := h
          subst h1
          subst h2
          simp
      | .hBad => simp [headerLoop] at h
      | .hItem isite label =>
          simp only [headerLoop] at h
          cases hlm : orbLabels.indexOf? label with
          | none => simp [hlm] at h
          | some lm =>
              simp only [hlm] at h
              cases hrec : headerLoop ncFlag rest (ip + 1) with
              | error e => simp [hrec] at h
              | ok pr =>
                  obtain ⟨ps0, ip0⟩ := pr
                  have hc := ih (ip + 1) ps0 ip0 hrec
                  simp only [hrec, Except.ok.injEq, Prod.mk.injEq] at h
                  obtain ⟨h1, h2⟩ := h
                  subst h2
                  rw [← h1]
                  simp only [List.length_cons]
                  omega

theorem headerParams_get_m (ncFlag : Bool) (ts : List (ℤ × String)) :
    ∀ (ip i : ℕ) (h : i < (headerParams ncFlag ip ts).length) (h2 : i < ts.length),
      ((headerParams ncFlag ip ts).get ⟨i, h⟩).m = mEncSpec ncFlag (ip + i) (ts.get ⟨i, h2⟩).2 := by
  induction ts with
  | nil => intro ip i h h2; exact absurd h2 (Nat.not_lt_zero i)
  | cons t rest ih =>
      intro ip i h h2
      obtain ⟨isite, label⟩ := t
      cases i with
      | zero =>
          simp [headerParams, mEncSpec, mRaw, lmToLM]
      | succ j =>
          have h' : j < (headerParams ncFlag (ip + 1) rest).length := by
            simp only [headerParams, List.length_cons] at h
            omega
          have h2' : j < rest.length := by
            simp only [List.length_cons] at h2
            omega
          have := ih (ip + 1) j h' h2'
          have harith : ip + 1 + j = ip + (j + 1) := by omega
          simpa [headerParams, harith] using this

/-- On recognised metadata lines whose count equals `nproj`, the full
header phase succeeds and yields the reference records. -/
theorem locprojHeaderBlock_run (ncdij nproj : ℕ) (ts : List (ℤ × String))
    (hgood : ∀ t ∈ ts, (orbLabels.indexOf? t.2).isSome)
    (hlen : ts.length = nproj) :
    locprojHeaderBlock ncdij nproj (ts.map mkHItem) =
      .ok (headerParams (ncFlagOf ncdij) 0 ts) := by
  have hrun := headerLoop_run (ncFlagOf ncdij) ts [] 0 hgood trivial
  rw [List.append_nil] at hrun
  unfold locprojHeaderBlock
  rw [hrun]
  simp [hlen]

/-- On recognised metadata lines whose count differs from `nproj`, the
`assert ip == nproj` fails. -/
theorem locprojHeaderBlock_mismatch (ncdij nproj : ℕ) (ts : List (ℤ × String))
    (rest : List HLine)
    (hgood : ∀ t ∈ ts, (orbLabels.indexOf? t.2).isSome)
    (hterm : termOk rest)
    (hlen : ts.length ≠ nproj) :
    locprojHeaderBlock ncdij nproj (ts.map mkHItem ++ rest) =
      .error (.assertionError "Number of projectors in the header is wrong in LOCPROJ") := by
  have hrun := headerLoop_run (ncFlagOf ncdij) ts rest 0 hgood hterm
  unfold locprojHeaderBlock
  rw [hrun]
  simp [hlen]

theorem locprojHeaderBlock_ok_length (ncdij nproj : ℕ) (lines : List HLine)
    (ps : List ProjParam) (h : locprojHeaderBlock ncdij nproj lines = .ok ps) :
    ps.length = nproj := by
  unfold locprojHeaderBlock at h
  cases hrun : headerLoop (ncFlagOf ncdij) lines 0 with
  | error e => simp [hrun] at h
  | ok pr =>
      obtain ⟨ps0, ip⟩ := pr
      have hc := headerLoop_count (ncFlagOf ncdij) lines 0 ps0 ip hrun
      simp only [hrun] at h
      by_cases hip : ip = nproj
      · rw [if_pos hip] at h
        simp only [Except.ok.injEq] at h
        subst h
        omega
      · rw [if_neg hip] at h
        exact absurd h (by simp)

/-- On recognised metadata lines, a successful header phase returns
exactly the reference records. -/
theorem locprojHeaderBlock_ok_inv (ncdij nproj : ℕ) (ts : List (ℤ × String))
    (ps : List ProjParam)
    (hgood : ∀ t ∈ ts, (orbLabels.indexOf? t.2).isSome)
    (h : locprojHeaderBlock ncdij nproj (ts.map mkHItem) = .ok ps) :
    ps = headerParams (ncFlagOf ncdij) 0 ts := by
  by_cases hlen : ts.length = nproj
  · rw [locprojHeaderBlock_run ncdij nproj ts hgood hlen] at h
    cases h
    rfl
  · have := locprojHeaderBlock_mismatch ncdij nproj ts [] hgood trivial hlen
    rw [List.append_nil] at this
    rw [this] at h
    exact absurd h (by simp)

/-- C2: the header metadata phase consumes exactly `nproj` records:
(1) any successful parse returns exactly the header-declared number of
records; (2) a run of recognised metadata lines whose length differs
from the declared count (in particular any shortfall) fails the
`assert ip == nproj`; (3) an orbital label outside the fixed 16-entry
table `orb_labels` raises a fatal lookup error. -/
theorem locproj_header_exactCount :
    (∀ (ncdij nproj : ℕ) (lines : List HLine) (ps : List ProjParam),
        locprojHeaderBlock ncdij nproj lines = .ok ps → ps.length = nproj) ∧
    (∀ (ncdij nproj : ℕ) (ts : List (ℤ × String)) (rest : List HLine),
        (∀ t ∈ ts, (orbLabels.indexOf? t.2).isSome) → termOk rest →
        ts.length ≠ nproj →
        locprojHeaderBlock ncdij nproj (ts.map mkHItem ++ rest) =
          .error (.assertionError "Number of projectors in the header is wrong in LOCPROJ")) ∧
    (∀ (ncdij nproj : ℕ) (ts : List (ℤ × String)) (isite : ℤ) (bad : String)
        (rest : List HLine),
        (∀ t ∈ ts, (orbLabels.indexOf? t.2).isSome) →
        orbLabels.indexOf? bad = none →
        locprojHeaderBlock ncdij nproj (ts.map mkHItem ++ HLine.hItem isite bad :: rest) =
          .error .valueError) := by
  refine ⟨locprojHeaderBlock_ok_length, locprojHeaderBlock_mismatch, ?_⟩
  intro ncdij nproj ts isite bad rest hgood hbad
  unfold locprojHeaderBlock
  rw [headerLoop_badLabel (ncFlagOf ncdij) ts isite bad rest 0 hgood hbad]

theorem locproj_header_exactCount_witness :
    ([⟨"s", 1, 0, 0⟩] : List ProjParam).length = 1 ∧
    locprojHeaderBlock 1 2 (List.map mkHItem [((1 : ℤ), "s")] ++ []) =
      .error (.assertionError "Number of projectors in the header is wrong in LOCPROJ") ∧
    locprojHeaderBlock 1 1 (List.map mkHItem [((1 : ℤ), "s")] ++ HLine.hItem 1 "zz" :: []) =
      .error .valueError :=
  ⟨locproj_header_exactCount.1 1 1 [HLine.hItem 1 "s"] [⟨"s", 1, 0, 0⟩] rfl,
   locproj_header_exactCount.2.1 1 2 [((1 : ℤ), "s")] [] (by decide) trivial (by decide),
   locproj_header_exactCount.2.2 1 1 [((1 : ℤ), "s")] 1 "zz" [] (by decide) (by decide)⟩

/-- C4: with `ncdij = 4` the non-collinear flag is set, the logical
projector-spin count `nspin` collapses to 1, and the parsed magnetic
quantum number of the metadata record at even (resp. odd) 0-based
index is re-encoded as `2m` (resp. `2m+1`); with `ncdij ≠ 4` the
parsed `m` is stored unchanged. -/
theorem locproj_noncollinear_reencoding :
    ncFlagOf 4 = true ∧ nspinOf 4 = 1 ∧
    (∀ (nproj : ℕ) (ts : List (ℤ × String)) (ps : List ProjParam),
        (∀ t ∈ ts, (orbLabels.indexOf? t.2).isSome) →
        locprojHeaderBlock 4 nproj (ts.map mkHItem) = .ok ps →
        ∀ (i : ℕ) (h : i < ps.length) (h2 : i < ts.length),
          (ps.get ⟨i, h⟩).m =
            if i % 2 = 0 then 2 * mRaw (ts.get ⟨i, h2⟩).2
            else 2 * mRaw (ts.get ⟨i, h2⟩).2 + 1) ∧
    (∀ (ncdij : ℕ), ncdij ≠ 4 →
        ∀ (nproj : ℕ) (ts : List (ℤ × String)) (ps : List ProjParam),
        (∀ t ∈ ts, (orbLabels.indexOf? t.2).isSome) →
        locprojHeaderBlock ncdij nproj (ts.map mkHItem) = .ok ps →
        ∀ (i : ℕ) (h : i < ps.length) (h2 : i < ts.length),
          (ps.get ⟨i, h⟩).m = mRaw (ts.get ⟨i, h2⟩).2) := by
  refine ⟨rfl, rfl, ?_, ?_⟩
  · intro nproj ts ps hgood h i hi h2
    have hps := locprojHeaderBlock_ok_inv 4 nproj ts ps hgood h
    subst hps
    have hg := headerParams_get_m (ncFlagOf 4) ts 0 i hi h2
    simpa [mEncSpec, ncFlagOf] using hg
  · intro ncdij hne nproj ts ps hgood h i hi h2
    have hps := locprojHeaderBlock_ok_inv ncdij nproj ts ps hgood h
    subst hps
    have hflag : ncFlagOf ncdij = false := by simp [ncFlagOf, hne]
    have hg := headerParams_get_m (ncFlagOf ncdij) ts 0 i hi h2
    simpa [mEncSpec, hflag] using hg

theorem locproj_noncollinear_reencoding_witness :
    ((([⟨"px", 1, 1, 4⟩, ⟨"px", 2, 1, 5⟩] : List ProjParam).get ⟨1, by decide⟩).m =
      if 1 % 2 = 0 then 2 * mRaw (([((1 : ℤ), "px"), ((2 : ℤ), "px")].get ⟨1, by decide⟩)).2
      else 2 * mRaw (([((1 : ℤ), "px"), ((2 : ℤ), "px")].get ⟨1, by decide⟩)).2 + 1) ∧
    ((([⟨"py", 3, 1, 0⟩] : List ProjParam).get ⟨0, by decide⟩).m =
      mRaw (([((3 : ℤ), "py")].get ⟨0, by decide⟩)).2) :=
  ⟨locproj_noncollinear_reencoding.2.2.1 2 [((1 : ℤ), "px"), ((2 : ℤ), "px")]
      [⟨"px", 1, 1, 4⟩, ⟨"px", 2, 1, 5⟩] (by decide) (by rfl) 1 (by decide) (by decide),
   locproj_noncollinear_reencoding.2.2.2 1 (by decide) 1 [((3 : ℤ), "py")]
      [⟨"py", 3, 1, 0⟩] (by decide) (by rfl) 0 (by decide) (by decide)⟩

theorem mkBlocks_cons (b : BlockSpec) (bs : List BlockSpec) :
    mkBlocks (b :: bs) = mkBlock b ++ mkBlocks bs := rfl

theorem readCoeffs_run (cs : List (ℚ × ℚ)) :
    ∀ rest, readCoeffs cs.length (cs.map coeffLineOf ++ rest) = .ok (cs, rest) := by
  induction cs with
  | nil => intro rest; rfl
  | cons c cs ih =>
      intro rest
      simp only [List.map_cons, List.length_cons, List.cons_append, readCoeffs, readlineF,
        coeffLineOf, floatAt, List.get?, floatTok]
      rw [ih rest]

theorem readDataRecord_run_ok (nproj : ℕ) (e : ℕ × ℕ × ℕ) (b : BlockSpec)
    (hc : b.coeffs.length = nproj) (ht : b.tI = shiftTriple e) (rest : List Line) :
    readDataRecord nproj e (mkBlock b ++ rest) = .ok (⟨b.eig, b.ferw, b.coeffs⟩, rest) := by
  obtain ⟨e1, e2, e3⟩ := e
  obtain ⟨⟨t1, t2, t3⟩, eig, ferw, cs⟩ := b
  simp only [shiftTriple, Prod.mk.injEq] at ht
  obtain ⟨h1, h23⟩ := ht
  obtain ⟨h2, h3⟩ := h23
  subst h1; subst h2; subst h3; subst hc
  simp only [mkBlock, recordLineOf, List.cons_append, readDataRecord, skipBlank,
    intAt, intTok, floatAt, floatTok, List.get?, Rat.den_natCast, Rat.num_natCast,
    List.append_eq, reduceIte]
  rw [if_pos (by omega)]
  rw [readCoeffs_run cs rest]

theorem readDataRecord_run_err (nproj : ℕ) (e : ℕ × ℕ × ℕ) (b : BlockSpec)
    (ht : b.tI ≠ shiftTriple e) (rest : List Line) :
    readDataRecord nproj e (mkBlock b ++ rest) =
      .error (.assertionError "Inconsistency in reading LOCPROJ") := by
  obtain ⟨e1, e2, e3⟩ := e
  obtain ⟨⟨t1, t2, t3⟩, eig, ferw, cs⟩ := b
  simp only [shiftTriple, ne_eq, Prod.mk.injEq] at ht
  simp only [mkBlock, recordLineOf, List.cons_append, readDataRecord, skipBlank,
    intAt, intTok, floatAt, floatTok, List.get?, Rat.den_natCast, Rat.num_natCast,
    List.append_eq, reduceIte]
  rw [if_neg (by omega)]

theorem readDataLoop_run_ok (nproj : ℕ) (es : List (ℕ × ℕ × ℕ)) :
    ∀ (bs : List BlockSpec) (rest : List Line),
      bs.length = es.length → (∀ b ∈ bs, b.coeffs.length = nproj) →
      bs.map BlockSpec.tI = es.map shiftTriple →
      readDataLoop nproj es (mkBlocks bs ++ rest) =
        .ok (bs.map fun b => ⟨b.eig, b.ferw, b.coeffs⟩, rest) := by
  induction es with
  | nil =>
      intro bs rest hlen _ _
      have hbs : bs = [] := List.length_eq_zero.mp hlen
      subst hbs
      rfl
  | cons e es ih =>
      intro bs rest hlen hco hmap
      match bs with
      | [] => simp at hlen
      | b :: bs0 =>
          simp only [List.map_cons, List.cons.injEq] at hmap
          obtain ⟨hh, htail⟩ := hmap
          have hlen0 : bs0.length = es.length := by simpa using hlen
          rw [mkBlocks_cons, List.append_assoc]
          simp only [readDataLoop]
          rw [readDataRecord_run_ok nproj e b (hco b (List.mem_cons_self _ _)) hh
            (mkBlocks bs0 ++ rest)]
          simp only [ih bs0 rest hlen0 (fun x hx => hco x (List.mem_cons_of_mem _ hx)) htail,
            List.map_cons]

theorem readDataLoop_run_err (nproj : ℕ) (es : List (ℕ × ℕ × ℕ)) :
    ∀ (bs : List BlockSpec) (rest : List Line),
      bs.length = es.length → (∀ b ∈ bs, b.coeffs.length = nproj) →
      bs.map BlockSpec.tI ≠ es.map shiftTriple →
      readDataLoop nproj es (mkBlocks bs ++ rest) =
        .error (.assertionError "Inconsistency in reading LOCPROJ") := by
  induction es with
  | nil =>
      intro bs rest hlen _ hne
      have hbs : bs = [] := List.length_eq_zero.mp hlen
      subst hbs
      exact absurd rfl hne
  | cons e es ih =>
      intro bs rest hlen hco hne
      match bs with
      | [] => simp at hlen
      | b :: bs0 =>
          rw [mkBlocks_cons, List.append_assoc]
          simp only [readDataLoop]
          by_cases hh : b.tI = shiftTriple e
          · have htail : bs0.map BlockSpec.tI ≠ es.map shiftTriple := by
              intro hcon
              apply hne
              simp [hh, hcon]
            rw [readDataRecord_run_ok nproj e b (hco b (List.mem_cons_self _ _)) hh
              (mkBlocks bs0 ++ rest)]
            simp only [ih bs0 rest (by simpa using hlen)
              (fun x hx => hco x (List.mem_cons_of_mem _ hx)) htail]
          · rw [readDataRecord_run_err nproj e b hh (mkBlocks bs0 ++ rest)]

/-- C1: in the phase-3 data block, parsing succeeds on a file whose
record lines embed exactly the expected 1-based (spin, k, band) triples
(the 0-based loop counters each plus one), and fails with the
"Inconsistency in reading LOCPROJ" assertion whenever some record
embeds any other triple. -/
theorem locproj_dataBlock_indexCheck (ncdij nk nband nproj : ℕ) (bs : List BlockSpec)
    (rest : List Line)
    (hlen : bs.length = (tripleList (nspinOf ncdij) nk nband).length)
    (hco : ∀ b ∈ bs, b.coeffs.length = nproj) :
    (bs.map BlockSpec.tI = (tripleList (nspinOf ncdij) nk nband).map shiftTriple →
      locprojDataBlock ncdij nk nband nproj (mkBlocks bs ++ rest) =
        .ok (bs.map fun b => ⟨b.eig, b.ferw, b.coeffs⟩)) ∧
    (bs.map BlockSpec.tI ≠ (tripleList (nspinOf ncdij) nk nband).map shiftTriple →
      locprojDataBlock ncdij nk nband nproj (mkBlocks bs ++ rest) =
        .error (.assertionError "Inconsistency in reading LOCPROJ")) := by
  constructor
  · intro hmap
    unfold locprojDataBlock
    rw [readDataLoop_run_ok nproj _ bs rest hlen hco hmap]
  · intro hne
    unfold locprojDataBlock
    rw [readDataLoop_run_err nproj _ bs rest hlen hco hne]

theorem locproj_dataBlock_indexCheck_witness :
    locprojDataBlock 1 1 1 1 (mkBlocks [⟨(1, 1, 1), 5, 1, [(2, 3)]⟩] ++ []) =
      .ok [⟨5, 1, [(2, 3)]⟩] ∧
    locprojDataBlock 1 1 1 1 (mkBlocks [⟨(2, 1, 1), 5, 1, [(2, 3)]⟩] ++ []) =
      .error (.assertionError "Inconsistency in reading LOCPROJ") :=
  ⟨(locproj_dataBlock_indexCheck 1 1 1 1 [⟨(1, 1, 1), 5, 1, [(2, 3)]⟩] []
      (by decide) (by decide)).1 (by decide),
   (locproj_dataBlock_indexCheck 1 1 1 1 [⟨(2, 1, 1), 5, 1, [(2, 3)]⟩] []
      (by decide) (by decide)).2 (by decide)⟩

theorem tripleList_eq_product (n a b : ℕ) :
    tripleList n a b = List.range n ×ˢ (List.range a ×ˢ List.range b) := by
  simp [tripleList, SProd.sprod, List.product, List.map_flatMap, List.map_map,
    Function.comp_def]

theorem countSlot_eq_count (l : List (ℕ × ℕ × ℕ)) (x : ℕ × ℕ × ℕ) :
    countSlot l x = @List.count _ instBEqOfDecidableEq x l := by
  rw [countSlot, ← List.countP_eq_length_filter]
  rfl

theorem tripleList_nodup (n a b : ℕ) : (tripleList n a b).Nodup := by
  rw [tripleList_eq_product]
  exact (List.nodup_range n).product ((List.nodup_range a).product (List.nodup_range b))

theorem tripleList_mem (n a b s k bb : ℕ) :
    (s, k, bb) ∈ tripleList n a b ↔ s < n ∧ k < a ∧ bb < b := by
  rw [tripleList_eq_product]
  simp [List.pair_mem_product, List.mem_range]

/-- C10: for `ncdij ∈ {1, 2, 4}` the logical spin count `nspin` (the
phase-3 loop bound) equals the band-spin count `nspin_band` (the
eigenvalue/occupation array dimension), both being 2 exactly at
`ncdij = 2` and 1 otherwise, so the loop writes exactly once into each
slot `(ik, ib, ispin)` of those arrays. -/
theorem locproj_spin_write_coverage (ncdij : ℕ)
    (hnc : ncdij = 1 ∨ ncdij = 2 ∨ ncdij = 4) :
    nspinOf ncdij = nspinBandOf ncdij ∧
    nspinOf ncdij = (if ncdij = 2 then 2 else 1) ∧
    (∀ (nk nb k b s : ℕ), k < nk → b < nb → s < nspinBandOf ncdij →
      countSlot (eigsWriteSlots (nspinOf ncdij) nk nb) (k, b, s) = 1) := by
  have hinj : Function.Injective (fun t : ℕ × ℕ × ℕ => (t.2.1, t.2.2, t.1)) := by
    intro ⟨a1, a2, a3⟩ ⟨c1, c2, c3⟩ h
    simp only [Prod.mk.injEq] at h
    simp [h.1, h.2.1, h.2.2]
  have hmain : ∀ (nsp nk nb k b s : ℕ), k < nk → b < nb → s < nsp →
      countSlot (eigsWriteSlots nsp nk nb) (k, b, s) = 1 := by
    intro nsp nk nb k b s hk hb hs
    have hc := List.count_map_of_injective (tripleList nsp nk nb)
      (fun t : ℕ × ℕ × ℕ => (t.2.1, t.2.2, t.1)) hinj (s, k, b)
    have hmem : (s, k, b) ∈ tripleList nsp nk nb :=
      (tripleList_mem nsp nk nb s k b).mpr ⟨hs, hk, hb⟩
    rw [countSlot_eq_count]
    exact hc.trans (List.count_eq_one_of_mem (tripleList_nodup nsp nk nb) hmem)
  have heq : nspinOf ncdij = nspinBandOf ncdij := by
    rcases hnc with h | h | h <;> subst h <;> rfl
  refine ⟨heq, ?_, ?_⟩
  · rcases hnc with h | h | h <;> subst h <;> rfl
  · intro nk nb k b s hk hb hs
    exact hmain (nspinOf ncdij) nk nb k b s hk hb (heq ▸ hs)

theorem locproj_spin_write_coverage_witness :
    nspinOf 2 = nspinBandOf 2 ∧
    nspinOf 2 = (if 2 = 2 then 2 else 1) ∧
    countSlot (eigsWriteSlots (nspinOf 2) 1 1) (0, 0, 1) = 1 :=
  ⟨(locproj_spin_write_coverage 2 (Or.inr (Or.inl rfl))).1,
   (locproj_spin_write_coverage 2 (Or.inr (Or.inl rfl))).2.1,
   (locproj_spin_write_coverage 2 (Or.inr (Or.inl rfl))).2.2 1 1 0 0 1
     (by decide) (by decide) (by decide)⟩

theorem list_sum_map_div (l : List ℚ) (c : ℚ) :
    (l.map fun w => w / c).sum = l.sum / c := by
  induction l with
  | nil => simp
  | cons a l ih => simp [ih, add_div]

theorem readKptLines_run (kdata : List ((ℚ × ℚ × ℚ) × ℚ)) :
    ∀ rest, readKptLines kdata.length (kdata.map mkKptLine ++ rest) = .ok (kdata, rest) := by
  induction kdata with
  | nil => intro rest; rfl
  | cons p ps ih =>
      intro rest
      obtain ⟨⟨x, y, z⟩, w⟩ := p
      simp only [List.map_cons, List.length_cons, List.cons_append, readKptLines, nextLine,
        mkKptLine, floatAt, floatTok, List.get?]
      rw [ih rest]

theorem readKptLines_short (kdata : List ((ℚ × ℚ × ℚ) × ℚ)) :
    ∀ n, kdata.length < n → readKptLines n (kdata.map mkKptLine) = .error .stopIteration := by
  induction kdata with
  | nil =>
      intro n hn
      match n, hn with
      | n + 1, _ => rfl
  | cons p ps ih =>
      intro n hn
      match n, hn with
      | n + 1, hn =>
          obtain ⟨⟨x, y, z⟩, w⟩ := p
          simp only [List.map_cons, readKptLines, nextLine, mkKptLine, floatAt, floatTok,
            List.get?]
          rw [ih n (by simpa using hn)]

/-- The front part of `Kpoints.from_file` on a well-formed file: only
the outcome of the optional tetrahedron section remains. -/
theorem kpointsFromFile_run (c1 c3 : Line) (kdata : List ((ℚ × ℚ × ℚ) × ℚ))
    (rest : List Line) :
    kpointsFromFile (mkKpointsFile c1 c3 kdata.length kdata rest) =
      match tetSection rest with
      | .error .stopIteration =>
          .ok ⟨(kdata.length : ℤ), kdata.map Prod.fst,
            (kdata.map Prod.snd).map (fun w => w / ((kdata.length : ℤ) : ℚ)), 0, none, []⟩
      | .error e => .error e
      | .ok ((ntet, volt, itet), _) =>
          .ok ⟨(kdata.length : ℤ), kdata.map Prod.fst,
            (kdata.map Prod.snd).map (fun w => w / ((kdata.length : ℤ) : ℚ)),
            ntet, some volt, itet⟩ := by
  simp only [mkKpointsFile, kpointsFromFile, nextLine, intAt, intTok, List.get?,
    Rat.den_natCast, Rat.num_natCast, reduceIte, Int.toNat_natCast]
  rw [readKptLines_run kdata rest]

/-- C5 counterexample: a parse that succeeds with one k-point whose
raw weight is 2: after the division by the k-point count the single
weight is 2, so the weights sum to 2, not 1. -/
theorem kpoints_weightSum_counterexample :
    kpointsFromFile (mkKpointsFile [] [] 1 [((0, 0, 0), 2)] []) =
      .ok ⟨1, [(0, 0, 0)], [2 / ((1 : ℤ) : ℚ)], 0, none, []⟩ ∧
    (1 : ℤ) ≤ (1 : ℤ) ∧ ([2 / ((1 : ℤ) : ℚ)] : List ℚ).sum ≠ 1 :=
  ⟨kpointsFromFile_run [] [] [((0, 0, 0), 2)] [], le_refl 1, by norm_num⟩

/-- C5 (amended): the weights produced by `Kpoints.from_file` are the
raw weights divided by the k-point count, so they sum to 1 exactly for
inputs whose raw weights sum to `N_k`; for `N_k ≥ 1` and raw weight
sum `N_k` the normalized sum is 1. -/
theorem kpoints_weightSum_normalized (c1 c3 : Line) (kdata : List ((ℚ × ℚ × ℚ) × ℚ))
    (rest : List Line) (hnk : 1 ≤ kdata.length)
    (hsum : (kdata.map Prod.snd).sum = (kdata.length : ℚ)) :
    ∀ r : KpointsRes,
      kpointsFromFile (mkKpointsFile c1 c3 kdata.length kdata rest) = .ok r →
      r.kwghts.sum = 1 := by
  intro r hr
  have hne : ((kdata.length : ℤ) : ℚ) ≠ 0 := by
    have : (0 : ℚ) < ((kdata.length : ℤ) : ℚ) := by
      push_cast
      exact_mod_cast Nat.lt_of_lt_of_le Nat.zero_lt_one hnk
    exact ne_of_gt this
  have hs : ((kdata.map Prod.snd).map (fun w => w / ((kdata.length : ℤ) : ℚ))).sum = 1 := by
    rw [list_sum_map_div, hsum]
    rw [show ((kdata.length : ℤ) : ℚ) = (kdata.length : ℚ) by push_cast; ring] at hne ⊢
    exact div_self hne
  rw [kpointsFromFile_run c1 c3 kdata rest] at hr
  split at hr
  · injection hr with h
    subst h
    exact hs
  · exact absurd hr (by simp)
  · injection hr with h
    subst h
    exact hs

theorem kpoints_weightSum_normalized_witness :
    (KpointsRes.mk 1 [(0, 0, 0)] [1 / ((1 : ℤ) : ℚ)] 0 none []).kwghts.sum = 1 :=
  kpoints_weightSum_normalized [] [] [((0, 0, 0), 1)] [] (by decide) (by norm_num)
    ⟨1, [(0, 0, 0)], [1 / ((1 : ℤ) : ℚ)], 0, none, []⟩
    (kpointsFromFile_run [] [] [((0, 0, 0), 1)] [])

/-- C9: end of input before or inside the tetrahedron section (in
particular a stream with no tetrahedron section at all) yields a
normal return with tetrahedron count 0 and the k-points and weights
retained, while end of input anywhere earlier (during the k-point
lines, or in the three header lines) is a fatal `StopIteration`. -/
theorem kpoints_tetrahedra_optional :
    (∀ (c1 c3 : Line) (kdata : List ((ℚ × ℚ × ℚ) × ℚ)) (rest : List Line),
        tetSection rest = .error .stopIteration →
        kpointsFromFile (mkKpointsFile c1 c3 kdata.length kdata rest) =
          .ok ⟨(kdata.length : ℤ), kdata.map Prod.fst,
            (kdata.map Prod.snd).map (fun w => w / ((kdata.length : ℤ) : ℚ)), 0, none, []⟩) ∧
    tetSection [] = .error .stopIteration ∧
    (∀ (c1 c3 : Line) (kdata : List ((ℚ × ℚ × ℚ) × ℚ)) (n : ℕ),
        kdata.length < n →
        kpointsFromFile (mkKpointsFile c1 c3 n kdata []) = .error .stopIteration) ∧
    (∀ c1 : Line, kpointsFromFile [c1] = .error .stopIteration) := by
  refine ⟨?_, rfl, ?_, fun c1 => rfl⟩
  · intro c1 c3 kdata rest htet
    rw [kpointsFromFile_run c1 c3 kdata rest]
    simp only [htet]
  · intro c1 c3 kdata n hlt
    simp only [mkKpointsFile, kpointsFromFile, nextLine, intAt, intTok, List.get?,
      Rat.den_natCast, Rat.num_natCast, reduceIte, Int.toNat_natCast, List.append_nil]
    rw [readKptLines_short kdata n hlt]

theorem kpoints_tetrahedra_optional_witness :
    kpointsFromFile (mkKpointsFile [] [] 1 [((0, 0, 0), 4)] []) =
      .ok ⟨1, [(0, 0, 0)], [4 / ((1 : ℤ) : ℚ)], 0, none, []⟩ ∧
    kpointsFromFile (mkKpointsFile [] [] 1 [] []) = .error .stopIteration :=
  ⟨kpoints_tetrahedra_optional.1 [] [] [((0, 0, 0), 4)] [] rfl,
   kpoints_tetrahedra_optional.2.2.1 [] [] [] 1 (by decide)⟩

theorem floatList_length (l : Line) :
    ∀ tmp, floatList l = .ok tmp → tmp.length = l.length := by
  induction l with
  | nil =>
      intro tmp h
      have h2 : (Except.ok [] : Except PyErr (List ℚ)) = .ok tmp := h
      injection h2 with h3
      subst h3
      rfl
  | cons t ts ih =>
      intro tmp h
      simp only [floatList] at h
      cases t with
      | word s => simp [floatTok] at h
      | num q =>
          simp only [floatTok] at h
          cases hts : floatList ts with
          | error e =>
              simp only [hts] at h
              exact absurd h (by simp)
          | ok qs =>
              simp only [hts, Except.ok.injEq] at h
              subst h
              simp [ih qs hts]

theorem floatList_error (l : Line) :
    ∀ e, floatList l = .error e → e = .valueError := by
  induction l with
  | nil =>
      intro e h
      have h2 : (Except.ok [] : Except PyErr (List ℚ)) = .error e := h
      exact absurd h2 (by simp)
  | cons t ts ih =>
      intro e h
      simp only [floatList] at h
      cases t with
      | word s =>
          simp only [floatTok, Except.error.injEq] at h
          exact h.symm
      | num q =>
          simp only [floatTok] at h
          cases hts : floatList ts with
          | error e2 =>
              simp only [hts, Except.error.injEq] at h
              subst h
              exact ih e2 hts
          | ok qs =>
              simp only [hts] at h
              exact absurd h (by simp)

/-- C8: a band line parses successfully only when its token count is
exactly `2 * ispin + 1`; in particular with two spin channels any band
line with fewer than 5 tokens raises a fatal error (a float
conversion error, or the format `assert`), and the per-band loop
propagates that error. -/
theorem eigenval_bandline_tokens :
    (∀ (ispin : ℕ) (l : Line) (r : List ℚ × List ℚ),
        eigBandLine ispin l = .ok r → l.length = 2 * ispin + 1) ∧
    (∀ l : Line, l.length < 5 →
        eigBandLine 2 l = .error .valueError ∨
        eigBandLine 2 l = .error (.assertionError
          "EIGENVAL file is incorrect (probably from old versions of VASP)")) ∧
    (∀ (ispin n : ℕ) (l : Line) (ls : List Line) (e : PyErr),
        eigBandLine ispin l = .error e →
        eigReadBands ispin (n + 1) (l :: ls) = .error e) := by
  refine ⟨?_, ?_, ?_⟩
  · intro ispin l r h
    unfold eigBandLine at h
    cases hfl : floatList l with
    | error e =>
        simp only [hfl] at h
        exact absurd h (by simp)
    | ok tmp =>
        simp only [hfl] at h
        by_cases hlen : tmp.length = 2 * ispin + 1
        · rw [← floatList_length l tmp hfl]
          exact hlen
        · simp only [hlen, if_false] at h
          exact absurd h (by simp)
  · intro l hl
    unfold eigBandLine
    cases hfl : floatList l with
    | error e =>
        left
        have he : e = .valueError := floatList_error l e hfl
        subst he
        rfl
    | ok tmp =>
        right
        have hlen2 : tmp.length ≠ 2 * 2 + 1 := by
          rw [floatList_length l tmp hfl]
          omega
        simp [hlen2]
  · intro ispin n l ls e h
    simp only [eigReadBands, nextLine]
    rw [h]

theorem eigenval_bandline_tokens_witness :
    ([Tok.num 1, Tok.num 2, Tok.num 3] : Line).length = 2 * 1 + 1 ∧
    (eigBandLine 2 [Tok.num 1, Tok.num 2] = .error .valueError ∨
     eigBandLine 2 [Tok.num 1, Tok.num 2] = .error (.assertionError
       "EIGENVAL file is incorrect (probably from old versions of VASP)")) ∧
    eigReadBands 2 1 [[Tok.num 1, Tok.word "x"]] = .error .valueError :=
  ⟨eigenval_bandline_tokens.1 1 [Tok.num 1, Tok.num 2, Tok.num 3] ([2], [3]) rfl,
   eigenval_bandline_tokens.2.1 [Tok.num 1, Tok.num 2] (by decide),
   eigenval_bandline_tokens.2.2 2 0 [Tok.num 1, Tok.word "x"] [] .valueError rfl⟩

/-- C3 (code bug): when the DOSCAR read fails with one of the caught
kinds and Fermi is required, an available LOCPROJ Fermi value is
adopted verbatim; but when it is unavailable the ingestion aborts
with an uncaught `AttributeError`, not with the intended "Efermi
cannot be read from DOSCAR or LOCPROJ" exception: the attribute
access never raises the `NameError` the handler guards for, so for
every caught DOSCAR failure that message is unreachable. -/
theorem doscar_fallback_attributeError :
    (∀ q : ℚ, doscarFallback (.error .ioError) (some q) 1 true = .ok (some q, none)) ∧
    doscarFallback (.error .ioError) none 1 true = .error .attributeError ∧
    PyErr.attributeError ≠
      PyErr.exception "Efermi cannot be read from DOSCAR or LOCPROJ" ∧
    (∀ (plocarEfermi : Option ℚ) (nspin : ℕ) (req : Bool) (err : PyErr),
        err = .ioError ∨ err = .stopIteration →
        doscarFallback (.error err) plocarEfermi nspin req ≠
          .error (.exception "Efermi cannot be read from DOSCAR or LOCPROJ")) := by
  refine ⟨fun q => rfl, rfl, by decide, ?_⟩
  intro plocarEfermi nspin req err hc h
  unfold doscarFallback at h
  rcases hc with rfl | rfl <;> cases req <;> cases plocarEfermi <;> simp_all

theorem doscar_fallback_attributeError_witness :
    doscarFallback (.error .stopIteration) none 1 true ≠
      .error (.exception "Efermi cannot be read from DOSCAR or LOCPROJ") :=
  doscar_fallback_attributeError.2.2.2 none 1 true .stopIteration (Or.inr rfl)

/-- C6: the POSCAR species/count ambiguity is resolved by a one-line
trial parse: a "Fe O" line followed by a "2 4" line yields species
`["Fe", "O"]` and counts `[2, 4]`; a lone "2 4" counts line (whatever
follows it) yields species `["El0", "El1"]` with the same counts; the
total ion count is 6. -/
theorem poscar_species_disambiguation :
    poscarSpecies [⟨"Fe", none⟩, ⟨"O", none⟩] [⟨"2", some 2⟩, ⟨"4", some 4⟩] =
      .ok (["Fe", "O"], [2, 4]) ∧
    (∀ line2 : List PosTok,
        poscarSpecies [⟨"2", some 2⟩, ⟨"4", some 4⟩] line2 =
          .ok (["El0", "El1"], [2, 4])) ∧
    poscarNq [2, 4] = 6 :=
  ⟨by decide, fun line2 => rfl, by decide⟩

/-- C7: with a negative scale factor the lattice is first read
unscaled and the effective per-axis scale is
`(|scale| / det(raw lattice))^(1/3)`, then applied; for scale `-8`
and a raw lattice of determinant 1 the effective scale is 2 and the
lattice is doubled. -/
theorem poscar_negative_scale (M : Matrix (Fin 3) (Fin 3) ℝ) (hdet : M.det = 1) :
    poscarEffScale (-8) M = 2 ∧ poscarScaledLattice (-8) M = (2 : ℝ) • M := by
  have h1 : poscarEffScale (-8) M = 2 := by
    unfold poscarEffScale
    rw [if_pos (by norm_num), hdet]
    rw [show (-(-8) : ℝ) / 1 = (2 : ℝ) ^ (3 : ℕ) by norm_num]
    rw [← Real.rpow_natCast (2 : ℝ) 3, ← Real.rpow_mul (by norm_num)]
    rw [show ((3 : ℕ) : ℝ) * ((1 : ℝ) / 3) = 1 by norm_num, Real.rpow_one]
  exact ⟨h1, by rw [poscarScaledLattice, h1]⟩

theorem poscar_negative_scale_witness :
    (1 : Matrix (Fin 3) (Fin 3) ℝ).det = 1 ∧ poscarEffScale (-8) 1 = 2 :=
  ⟨Matrix.det_one, (poscar_negative_scale 1 Matrix.det_one).1⟩
